import Mathlib

/-!
Verification of the InvestIQ chat-bot microservice (the LangGraph agent
pipeline under `chatBotMicroservice/`).

The development shallowly embeds the Python source:

* `state.py`            — the `AgentState` record, `merge_lists`, and the
                          reducers actually attached to the append fields;
* `graph.py`            — the compiled graph (nodes, edges, entry point) and
                          the `after_validator` router;
* `nodes/helpers.py`    — `emit`, `_sla_exceeded`, `stream_status`,
                          `llm_call`, the `DATA_NEEDED` / `CHART_TYPE`
                          extraction regexes, constants;
* `nodes/*.py`          — the five node bodies registered on the graph;
* `controller.py`       — the `/chat` endpoint guard, the `run_graph` worker
                          (chunk routing, final-flush ordering, sentinels)
                          and the `generate` consumer.

External collaborators (the Ollama LLM clients, the HTTP tools, `json.loads`
on model-produced argument text, wall-clock readings) are modelled as oracle
inputs: every theorem quantifies over their behaviour.  Machine floats only
occur as wall-clock seconds; they are modelled as rationals, which is
faithful for the single comparison (`elapsed > GRAPH_SLA_SECS`) the code
performs on them.

Stream chunks are strings in the source, but every chunk the service ever
constructs is produced by `emit(type, data)` = `json.dumps({...}) + "\n"`
(or by the controller `json.dumps` with the same shape), so a chunk is
modelled as its parsed `(type, data)` pair; the `json.loads` re-parse in the
controller then always succeeds, and the two sentinel strings
`"__graph_done__"` / `"__thinking_done__"` are distinct from every chunk.
-/

namespace InvestIQ

/-! ### Python string primitives (ASCII fragment, which covers all inputs the
service manipulates: prompts, model text, marker strings) -/

/-- Python `\s` for the ASCII range: space, tab, newline, carriage return,
vertical tab, form feed. -/
def isPySpace (c : Char) : Bool :=
  c = ' ' || c = '\t' || c = '\n' || c = '\r' || c = '\x0b' || c = '\x0c'

/-- Python `str.strip()` on a character list. -/
def pyStripChars (l : List Char) : List Char :=
  ((l.dropWhile isPySpace).reverse.dropWhile isPySpace).reverse

/-- Python `str.strip()`. -/
def pyStrip (s : String) : String := String.mk (pyStripChars s.toList)

/-- Python `str.lower()` (ASCII). -/
def pyLower (s : String) : String := String.mk (s.toList.map Char.toLower)

/-- Python `str.upper()` (ASCII). -/
def pyUpper (s : String) : String := String.mk (s.toList.map Char.toUpper)

/-- Python slicing `s[:n]`. -/
def pyTake (n : Nat) (s : String) : String := String.mk (s.toList.take n)

/-- Does `l` start with `p` (character lists)? Python `str.startswith`. -/
def charsLead : List Char → List Char → Bool
  | [], _ => true
  | _ :: _, [] => false
  | a :: as, b :: bs => a == b && charsLead as bs

/-- Python `str.startswith`. -/
def strLeads (p s : String) : Bool := charsLead p.toList s.toList

/-- Does `n` occur contiguously inside `h`? Python `n in h` on strings. -/
def charsContain (h n : List Char) : Bool :=
  match h with
  | [] => n.isEmpty
  | _ :: t => charsLead n h || charsContain t n

/-- Python substring test `needle in haystack`. -/
def strContains (haystack needle : String) : Bool :=
  charsContain haystack.toList needle.toList

/-- Characters Python `str.splitlines` breaks on, restricted to ASCII. -/
def isLineBreak (c : Char) : Bool :=
  c = '\n' || c = '\r' || c = '\x0b' || c = '\x0c'

/-- Python `\w` (ASCII): letters, digits, underscore. -/
def isWordChar (c : Char) : Bool := c.isAlphanum || c = '_'

/-- Helper `_truncate` from `nodes/helpers.py`: hard-truncate with an
ellipsis marker. -/
def pyTruncate (text : String) (maxLen : Nat := 120) : String :=
  if text.length ≤ maxLen then text else pyTake maxLen text ++ "..."

/-! ### The two extraction regexes of `nodes/helpers.py`

`DATA_NEEDED_EXTRACT = re.compile(r"DATA_NEEDED\s*\*{0,2}\s*:\s*\*{0,2}\s*(.+?)(?:\n|$)", re.I)`
`CHART_TYPE_EXTRACT  = re.compile(r"CHART_TYPE\s*\*{0,2}\s*:\s*\*{0,2}\s*(\w+)", re.I)`

Both are embedded as character-list matchers.  The part before the colon
(`\s*\*{0,2}\s*:`) parses deterministically because `\s`, `*` and `:` are
pairwise disjoint character classes, so greedy matching never needs to
backtrack into it.  After the colon the two patterns differ:

* for `CHART_TYPE` the tail `\s*\*{0,2}\s*(\w+)` is again deterministic
  (`\w` is disjoint from `\s` and `*`);
* for `DATA_NEEDED` the lazy capture `(.+?)(?:\n|$)` interacts with the
  greedy `\s*` quantifiers (a `\s*` can swallow newlines, and at end of
  input it must hand characters back to the mandatory `.+?`), so the tail
  is matched by enumerating the quantifier splits in exactly the order a
  backtracking engine prefers them: first `\s*` longest first, then
  `\*{0,2}` longest first, then the second `\s*` longest first, taking the
  first split at which the lazy capture succeeds.  For a fixed capture
  start, laziness plus `(?:\n|$)` makes the capture the run of
  non-newline characters up to the next newline or the end, provided it is
  nonempty.

The search itself scans start positions left to right, as `re.search` does.
-/

/-- Capture of `(.+?)(?:\n|$)` starting exactly at `l` (with `.` not
matching newline): the nonempty run up to the next newline or the end. -/
def lazyLineCapture (l : List Char) : Option (List Char) :=
  match l with
  | [] => none
  | c :: _ => if c = '\n' then none else some (l.takeWhile (· ≠ '\n'))

/-- Match `\s*\*{0,2}\s*(.+?)(?:\n|$)` against `t`, returning the capture
group, trying quantifier splits in backtracking-preference order. -/
def lazyTailMatch (t : List Char) : Option (List Char) :=
  let aMax := (t.takeWhile isPySpace).length
  ((List.range (aMax + 1)).reverse).findSome? fun a =>
    let t1 := t.drop a
    let sMax := min 2 (t1.takeWhile (· = '*')).length
    ((List.range (sMax + 1)).reverse).findSome? fun s =>
      let t2 := t1.drop s
      let bMax := (t2.takeWhile isPySpace).length
      ((List.range (bMax + 1)).reverse).findSome? fun b =>
        lazyLineCapture (t2.drop b)

/-- Match the case-insensitive literal `needle` (given lowercase) at the
head of `l`, returning the rest. -/
def matchLiteralCI : List Char → List Char → Option (List Char)
  | [], l => some l
  | _ :: _, [] => none
  | n :: ns, c :: cs => if c.toLower = n then matchLiteralCI ns cs else none

/-- Match `\s*\*{0,2}\s*:` at the head of `l`, returning the rest (this
region is a deterministic parse, see above). -/
def matchColonPart (l : List Char) : Option (List Char) :=
  let l1 := l.dropWhile isPySpace
  let l2 := match l1 with
    | '*' :: '*' :: t => t
    | '*' :: t => t
    | t => t
  let l3 := l2.dropWhile isPySpace
  match l3 with
  | ':' :: t => some t
  | _ => none

/-- `DATA_NEEDED_EXTRACT.search(text)`: the raw capture group of the first
match, scanning start positions left to right. -/
def dataNeededSearch : List Char → Option (List Char)
  | [] => none
  | l@(_ :: t) =>
    match (matchLiteralCI "data_needed".toList l).bind matchColonPart with
    | some rest =>
      match lazyTailMatch rest with
      | some cap => some cap
      | none => dataNeededSearch t
    | none => dataNeededSearch t

/-- The `data_needed` string the researcher and response agent compute:
`match.group(1).strip() if match else ""`. -/
def extractedDataNeeded (plan : String) : String :=
  match dataNeededSearch plan.toList with
  | some cap => String.mk (pyStripChars cap)
  | none => ""

/-- Match `\s*\*{0,2}\s*(\w+)` at the head of `l` (deterministic, see
above), returning the capture. -/
def wordTailMatch (l : List Char) : Option (List Char) :=
  let l1 := l.dropWhile isPySpace
  let l2 := match l1 with
    | '*' :: '*' :: t => t
    | '*' :: t => t
    | t => t
  let l3 := l2.dropWhile isPySpace
  let cap := l3.takeWhile isWordChar
  if cap.isEmpty then none else some cap

/-- `CHART_TYPE_EXTRACT.search(text)`: the raw capture group of the first
match. -/
def chartTypeSearch : List Char → Option (List Char)
  | [] => none
  | l@(_ :: t) =>
    match (matchLiteralCI "chart_type".toList l).bind matchColonPart with
    | some rest =>
      match wordTailMatch rest with
      | some cap => some cap
      | none => chartTypeSearch t
    | none => chartTypeSearch t

/-! ### Data model: messages, chunks, queue items (`state.py`,
`nodes/helpers.py`) -/

/-- A LangChain message, reduced to what the nodes inspect: its class and
its content.  `aiToolCall` is the `AIMessage(content="", tool_calls=[...])`
the researcher and display agent append (tool name, serialized args, id). -/
inductive Message
  | system (content : String)
  | human (content : String)
  | ai (content : String)
  | aiToolCall (toolName : String) (argsText : String) (id : String)
  | tool (content : String) (toolCallId : String)
deriving DecidableEq, Repr

/-- A plotly chart object built by `display_agent._build_chart_object`.  Its
internal layout is never inspected by the engine (it is rendered by the
out-of-scope frontend), so it is kept opaque up to identity. -/
structure Chart where
  tag : Nat
deriving DecidableEq, Repr

/-- An entry of the `display_results` append field: `display_agent` appends
a single chart dict, and the flattening loops in the controller and the
response agent accept either a bare item or a list
(`flat.extend(r) if isinstance(r, list) else flat.append(r)`). -/
inductive DisplayRes
  | one (c : Chart)
  | many (cs : List Chart)
deriving DecidableEq, Repr

/-- The flattening loop over `display_results`. -/
def flattenDisplay (rs : List DisplayRes) : List Chart :=
  rs.flatMap fun r => match r with | .one c => [c] | .many cs => cs

/-- The `data` component of an emitted chunk: a text payload
(`thinking_content`, `response_content`) or a list of display modules
(`display_modules`). -/
inductive Payload
  | text (s : String)
  | modules (cs : List Chart)
deriving DecidableEq, Repr

/-- A stream chunk.  In the source this is the string
`json.dumps({"type": t, "data": d}) + "\n"` built by `emit`; it is modelled
as the parsed pair, since every chunk in the service is built this way and
the controller re-parses it with `json.loads(c).get("type", "")`. -/
structure Chunk where
  ctype : String
  data : Payload
deriving DecidableEq, Repr

/-- `emit` from `nodes/helpers.py`. -/
def emit (t : String) (d : Payload) : Chunk := ⟨t, d⟩

/-- An item travelling on one of the two `queue.Queue`s: a chunk string, or
one of the two out-of-band sentinel strings (which differ from every JSON
chunk string). -/
inductive QItem
  | chunk (c : Chunk)
  | graphDone
  | thinkingDone
deriving DecidableEq, Repr

/-! ### State and reducers (`state.py`) -/

/-- `merge_lists` from `state.py`: `(left or []) + (right or [])`.  `none`
models Python `None`; `some []` and `none` are both falsy, so they behave
identically, as here. -/
def merge_lists {α : Type} (left right : Option (List α)) : List α :=
  left.getD [] ++ right.getD []

/-- The reducer actually attached to the `stream_chunks` and
`display_results` fields by their `Annotated` declarations:
`lambda a, b: a + b`.  `None + list` and `list + None` raise `TypeError`
in Python, modelled as `none`; only the two-list case produces a value. -/
def annotated_add_reducer {α : Type} (a b : Option (List α)) : Option (List α) :=
  match a, b with
  | some x, some y => some (x ++ y)
  | _, _ => none

/-- The shared `AgentState` (the `TypedDict` of `state.py`).  `token_queue`
holds a live `queue.Queue`; the nodes only test its truthiness and push to
it, so it is modelled by its presence, and pushes are collected as explicit
output lists.  `start_time` is a wall-clock float read only by
`_sla_exceeded` via `elapsed = time.time() - start`; the state keeps its
presence and the elapsed readings enter through the per-node oracle.
`think_summary`, `reasoning_summary` and `needs_validation` are declared in
the `TypedDict` but never written nor read by any registered node. -/
structure AgentState where
  messages : List Message := []
  pm_plan : String := ""
  stream_chunks : List Chunk := []
  display_results : List DisplayRes := []
  think_summary : String := ""
  reasoning_summary : String := ""
  evaluation : String := ""
  evaluation_critique : String := ""
  retry_count : Nat := 0
  token_queue : Bool := true
  start_time : Bool := true
  needs_validation : Bool := false
  data_fetched : Bool := false
deriving DecidableEq, Repr

/-- A node return value: the subset of state keys the node writes (`none`
means the key is absent from the returned dict).  The registered nodes only
ever write these five keys.  (`display_agent._fail` additionally writes a
`display_failed` key that does not exist in the `AgentState` schema; only
declared channels are merged into state, so it has no state effect and is
omitted.) -/
structure StateUpdate where
  messages : Option (List Message) := none
  pm_plan : Option String := none
  stream_chunks : Option (List Chunk) := none
  display_results : Option (List DisplayRes) := none
  data_fetched : Option Bool := none
  evaluation : Option String := none
  evaluation_critique : Option String := none
  retry_count : Option Nat := none
deriving DecidableEq, Repr

/-- Merging a node update into the shared state: scalar channels are
last-write-wins, the two list-append channels use their declared reducer
(`a + b`, both operands lists here), and `messages` uses the external
`langgraph.graph.message.add_messages` reducer, passed in as an opaque
function `mMerge` (no claim depends on its internals). -/
def mergeState (mMerge : List Message → List Message → List Message)
    (st : AgentState) (p : StateUpdate) : AgentState :=
  { st with
    messages := match p.messages with
      | some u => mMerge st.messages u
      | none => st.messages
    pm_plan := p.pm_plan.getD st.pm_plan
    stream_chunks := match p.stream_chunks with
      | some u => st.stream_chunks ++ u
      | none => st.stream_chunks
    display_results := match p.display_results with
      | some u => st.display_results ++ u
      | none => st.display_results
    data_fetched := p.data_fetched.getD st.data_fetched
    evaluation := p.evaluation.getD st.evaluation
    evaluation_critique := p.evaluation_critique.getD st.evaluation_critique
    retry_count := p.retry_count.getD st.retry_count }

/-! ### Node helpers (`nodes/helpers.py`) -/

/-- `GRAPH_SLA_SECS` — the hard wall-clock budget of a run, in seconds. -/
def GRAPH_SLA_SECS : ℚ := 1000

/-- `MAX_PROMPT_CHARS` — max chars of a tool result stored in state. -/
def MAX_PROMPT_CHARS : Nat := 15000

/-- `RESEARCHER_MAX_ITERATIONS` — max tool-call iterations per request. -/
def RESEARCHER_MAX_ITERATIONS : Nat := 10

/-- `_sla_exceeded(state)`: `False` when `start_time` is absent (or zero,
also falsy — the service always stores a genuine epoch float, so presence
is the faithful reading), otherwise `elapsed > GRAPH_SLA_SECS` where
`elapsed` is the wall-clock reading at this check, supplied by the oracle. -/
def sla_exceeded (hasStart : Bool) (elapsed : ℚ) : Bool :=
  hasStart && decide (GRAPH_SLA_SECS < elapsed)

/-- `next((m.content for m in messages if isinstance(m, HumanMessage)), "")`. -/
def firstHuman (ms : List Message) : String :=
  (ms.findSome? fun m => match m with | .human c => some c | _ => none).getD ""

/-- `_extract_tool_context`: the `"\n\n"`-join of the contents of all
`ToolMessage`s with truthy (nonempty) content. -/
def extract_tool_context (ms : List Message) : String :=
  String.intercalate "\n\n" (ms.filterMap fun m => match m with
    | .tool c _ => if c = "" then none else some c
    | _ => none)

/-- What a node call produces: the returned `StateUpdate` plus the items it
pushed onto the shared `token_queue` while running, in push order. -/
structure NodeResult where
  update : StateUpdate
  pushes : List QItem := []
deriving DecidableEq, Repr

/-- `stream_status(state, message)`: emits a `thinking_content` chunk, pushes
it and `__thinking_done__` onto the token queue when one is present, and
returns `{"messages": [], "stream_chunks": [chunk_str]}` (a return value
`llm_call` discards). -/
def stream_status (tokenQueue : Bool) (message : String) : NodeResult :=
  let c := emit "thinking_content" (.text message)
  { update := { messages := some [], stream_chunks := some [c] }
    pushes := if tokenQueue then [.chunk c, .thinkingDone] else [] }

/-- Outcome of one LLM invocation, as seen through `_llm_text`: `none` when
`invoke` raised (with `errText` the exception text), `some t` when it
returned a response whose extracted text is `t` (possibly `""`). -/
structure LlmOutcome where
  result : Option String := some ""
  errText : String := ""
deriving DecidableEq, Repr

/-- `llm_call` from `nodes/helpers.py`: status chunk before, invoke, extract
text, optional truncation, status chunk after; never raises, returns `""`
on LLM exception or empty extraction (each with a warning status chunk).
Returns the extracted text together with the token-queue pushes. -/
def llm_call (tokenQueue : Bool) (o : LlmOutcome)
    (statusBefore statusAfter : Option String) (label : String)
    (truncateResult : Option Nat) : String × List QItem :=
  let pre := match statusBefore with
    | some m => (stream_status tokenQueue m).pushes
    | none => []
  match o.result with
  | none =>
    ("", pre ++ (stream_status tokenQueue
      ("⚠️ " ++ label ++ ": LLM error — " ++ pyTruncate o.errText 80)).pushes)
  | some text =>
    if text = "" then
      ("", pre ++ (stream_status tokenQueue
        ("⚠️ " ++ label ++ ": received empty response from LLM")).pushes)
    else
      let text := match truncateResult with
        | some n => if n < text.length then pyTake n text else text
        | none => text
      let post := match statusAfter with
        | some m => (stream_status tokenQueue m).pushes
        | none => []
      (text, pre ++ post)

/-! ### Node: project manager (`nodes/project_manager.py`) -/

/-- Oracle for one `project_manager_node` call: the elapsed wall-clock at
its entry SLA check and the outcome of its single `llm_medium.invoke`. -/
structure PMOracle where
  elapsed : ℚ := 0
  llm : Option String := some ""
deriving DecidableEq, Repr

/-- The hardcoded placeholder plan the project manager falls back to when
its LLM call raises. -/
def PM_FALLBACK_PLAN : String :=
  "STEPS: 1. Answer the question directly.\nDATA_NEEDED: none\nOUTPUT_FORMAT: text\nCHART_TYPE: none"

/-- `project_manager_node`. -/
def project_manager_node (st : AgentState) (o : PMOracle) : NodeResult :=
  if sla_exceeded st.start_time o.elapsed then
    { update := { messages := some [], pm_plan := some "",
                  stream_chunks := some [], display_results := some [] } }
  else
    let plan := match o.llm with
      | some t => pyStrip t
      | none => PM_FALLBACK_PLAN
    { update := { messages := some [], pm_plan := some plan,
                  stream_chunks := some [], display_results := some [] } }

/-! ### Node: thinker (`nodes/thinker.py`) -/

/-- Oracle for one `thinker_node` call. -/
structure ThinkerOracle where
  elapsed : ℚ := 0
  llm : Option String := some ""
deriving DecidableEq, Repr

/-- The fallback narration the thinker emits when its LLM call raises or
returns empty text. -/
def THINKER_FALLBACK : String :=
  "Let me work through this step by step based on what you\x27ve asked..."

/-- `thinker_node`.  Note the SLA branch returns without touching the token
queue at all, while the retry- and no-plan branches still push
`__thinking_done__`, and the normal/exception branches push the (possibly
fallback) thinking chunk followed by `__thinking_done__`. -/
def thinker_node (st : AgentState) (o : ThinkerOracle) : NodeResult :=
  if sla_exceeded st.start_time o.elapsed then
    { update := { messages := some [], stream_chunks := some [] } }
  else if 0 < st.retry_count then
    { update := { messages := some [], stream_chunks := some [] }
      pushes := if st.token_queue then [.thinkingDone] else [] }
  else if st.pm_plan = "" then
    { update := { messages := some [], stream_chunks := some [] }
      pushes := if st.token_queue then [.thinkingDone] else [] }
  else
    let c := match o.llm with
      | some t =>
        let tt := pyStrip t
        if tt = "" then emit "thinking_content" (.text THINKER_FALLBACK)
        else emit "thinking_content" (.text tt)
      | none => emit "thinking_content" (.text THINKER_FALLBACK)
    { update := { messages := some [], stream_chunks := some [c] }
      pushes := (if st.token_queue then [.chunk c] else [])
        ++ (if st.token_queue then [.thinkingDone] else []) }

/-! ### Node: researcher (`nodes/researcher.py`) -/

/-- The error markers `_is_tool_result_an_error` scans for. -/
def ERROR_MARKERS : List String :=
  ["Error Message", "Note: Thank you for using Alpha Vantage", "Information:",
   "No Wikipedia article found", "not found or empty", "No content found",
   "Error retrieving context", "rate limit", "timed out", "Unexpected error",
   "Network error"]

/-- `_is_tool_result_an_error`: case-insensitive substring scan. -/
def is_tool_result_an_error (result : String) : Bool :=
  ERROR_MARKERS.any fun m => strContains (pyLower result) (pyLower m)

/-- The keys of `TOOL_MAP` in `tools.py` (`{t.name: t for t in TOOLS}`). -/
def TOOL_NAMES : List String := ["get_graph_data", "get_company_context", "get_stock_data"]

/-- The planner decision: `_llm_text(resp).strip().splitlines()`, break on
an empty list, else `lines[0].strip()`. -/
def planner_first_decision (text : String) : Option String :=
  let s := pyStripChars text.toList
  if s.isEmpty then none
  else some (String.mk (pyStripChars (s.takeWhile fun c => ¬ isLineBreak c)))

/-- Split at the first `|`, as `after_call.index("|")` does; `none` models
the `ValueError` the `except` turns into a loop break. -/
def splitAtPipe : List Char → Option (List Char × List Char)
  | [] => none
  | '|' :: t => some ([], t)
  | c :: t => (splitAtPipe t).map fun p => (c :: p.1, p.2)

/-- Parse a `CALL:` decision line into `(tool_name, args_str)`:
`after_call = decision[5:].strip()`, split at the first pipe, strip both
sides; `none` models the `except` branch (no pipe present). -/
def parseCall (decision : String) : Option (String × String) :=
  let afterCall := pyStripChars (decision.toList.drop 5)
  (splitAtPipe afterCall).map fun p =>
    (String.mk (pyStripChars p.1), String.mk (pyStripChars p.2))

/-- Environment outcomes for one researcher loop iteration: the wall-clock
at the loop-top SLA check, the planner LLM outcome (`none` = raised),
whether `json.loads` accepts the planner-supplied argument text, the tool
invocation outcome (`none` = the tool raised, with `toolErr` the exception
text; `some r` = the result, already serialized to a string as
`result if isinstance(result, str) else json.dumps(result)`), and the
millisecond clock used in the tool-call id. -/
structure RStep where
  elapsed : ℚ := 0
  planner : Option String := some "DONE"
  argsParse : Bool := true
  toolResult : Option String := some ""
  toolErr : String := ""
  nowMs : Nat := 0
deriving DecidableEq, Repr

/-- Oracle for one `researcher_node` call: the entry SLA reading and the
per-iteration environment (indexed by the 1-based iteration counter). -/
structure ROracle where
  elapsed : ℚ := 0
  step : Nat → RStep := fun _ => {}

/-- The researcher loop accumulator, plus instrumentation: the number of
planner LLM calls made and the names of the tools actually invoked. -/
structure RLoopState where
  collected : List String := []
  aiMsgs : List Message := []
  toolMsgs : List Message := []
  plannerCalls : Nat := 0
  toolInvocations : List String := []
  iterationsRun : Nat := 0
deriving DecidableEq, Repr

/-- The researcher `while iteration < RESEARCHER_MAX_ITERATIONS` loop.
`iteration` is the Python counter before the in-body increment and `fuel`
is `RESEARCHER_MAX_ITERATIONS - iteration`, so the structural recursion on
`fuel` mirrors the loop guard exactly.  Every `break`/fall-through of the
body is a non-recursive return; `continue` and the normal tail recurse. -/
def researcher_loop (o : ROracle) (hasStart : Bool) :
    Nat → Nat → RLoopState → RLoopState
  | _, 0, acc => acc
  | iteration, fuel + 1, acc =>
    let stp := o.step (iteration + 1)
    if sla_exceeded hasStart stp.elapsed then acc
    else
      let it := iteration + 1
      let acc := { acc with iterationsRun := it }
      let acc := { acc with plannerCalls := acc.plannerCalls + 1 }
      match stp.planner with
      | none => acc
      | some text =>
        match planner_first_decision text with
        | none => acc
        | some decision =>
          let du := pyUpper decision
          if strLeads "DONE" du then acc
          else if ¬ strLeads "CALL:" du then acc
          else match parseCall decision with
            | none => acc
            | some (tool_name, args_str) =>
              if ¬ stp.argsParse then acc
              else if ¬ TOOL_NAMES.contains tool_name then acc
              else
                let tool_id := "tc_" ++ tool_name ++ "_" ++ toString stp.nowMs
                  ++ "_" ++ toString it
                let acc := { acc with
                  aiMsgs := acc.aiMsgs ++ [Message.aiToolCall tool_name args_str tool_id]
                  toolInvocations := acc.toolInvocations ++ [tool_name] }
                let result_str := match stp.toolResult with
                  | some r => r
                  | none => "Tool error: " ++ stp.toolErr
                let trimmed := pyTake MAX_PROMPT_CHARS result_str
                let acc := { acc with toolMsgs := acc.toolMsgs ++ [Message.tool trimmed tool_id] }
                if is_tool_result_an_error result_str then
                  researcher_loop o hasStart it fuel
                    { acc with collected := acc.collected
                        ++ ["[" ++ tool_name ++ " failed]: " ++ pyTake 200 result_str] }
                else
                  researcher_loop o hasStart it fuel
                    { acc with collected := acc.collected ++ [trimmed] }

/-- `researcher_node`, with its instrumentation record: SLA skip, the
`DATA_NEEDED` skip (no tools, `data_fetched = True`), or the agentic loop.
The planner prompt strings (question/need/context windows) only
parameterize the external LLM and are absorbed into the per-iteration
oracle. -/
def researcher_run (st : AgentState) (o : ROracle) : StateUpdate × RLoopState :=
  if sla_exceeded st.start_time o.elapsed then
    ({ messages := some [], stream_chunks := some [], data_fetched := some false }, {})
  else
    let data_needed := extractedDataNeeded st.pm_plan
    if ["none", "n/a", ""].contains (pyLower data_needed) then
      ({ messages := some [], stream_chunks := some [], data_fetched := some true }, {})
    else
      let res := researcher_loop o st.start_time 0 RESEARCHER_MAX_ITERATIONS {}
      ({ messages := some (res.aiMsgs ++ res.toolMsgs), stream_chunks := some [],
         data_fetched := some (decide (0 < res.collected.length)) }, res)

/-- `researcher_node` as a plain node (the researcher never pushes to the
token queue). -/
def researcher_node (st : AgentState) (o : ROracle) : NodeResult :=
  { update := (researcher_run st o).1 }

/-! ### Node: response agent (`nodes/response_agent.py`) -/

/-- Oracle for one `response_agent_node` call. -/
structure RespOracle where
  elapsed : ℚ := 0
  llm : Option String := some ""
deriving DecidableEq, Repr

/-- SLA fallback final message of the response agent. -/
def RESPOND_SLA_MSG : String :=
  "I wasn\x27t able to complete your request in time. Please try again."

/-- Honest-failure final message when data was required but not fetched. -/
def RESPOND_NO_DATA_MSG : String :=
  "I wasn\x27t able to retrieve the data needed to answer this accurately. This could be due to an API limit or connection issue. Please try again in a moment."

/-- Apology used when the LLM raises or returns an empty/non-answer. -/
def RESPOND_FAIL_MSG : String :=
  "I wasn\x27t able to generate a response. Please try again."

/-- `response_agent_node`.  The chart note / brevity-hint / prompt assembly
only parameterize the external LLM and are absorbed into the oracle.  The
returned `messages` contain the raw LLM response object when the call
succeeded (`[response] if response else []`), modelled via its extracted
text. -/
def response_agent_node (st : AgentState) (o : RespOracle) : NodeResult :=
  if sla_exceeded st.start_time o.elapsed then
    { update := { messages := some []
                  stream_chunks := some [emit "response_content" (.text RESPOND_SLA_MSG)] } }
  else
    let data_needed := extractedDataNeeded st.pm_plan
    let needs_data := ¬ ["none", "n/a", ""].contains (pyLower data_needed)
    if needs_data ∧ ¬ st.data_fetched then
      { update := { messages := some []
                    stream_chunks := some [emit "response_content" (.text RESPOND_NO_DATA_MSG)] } }
    else
      let content0 := match o.llm with
        | some t => pyStrip t
        | none => RESPOND_FAIL_MSG
      let content := if content0 = "" ∨ strLeads "no output generated" (pyLower content0)
        then RESPOND_FAIL_MSG else content0
      let extra := if st.display_results = [] then []
        else [emit "display_modules" (.modules (flattenDisplay st.display_results))]
      let msgs : List Message := match o.llm with
        | some t => [Message.ai t]
        | none => []
      { update := { messages := some msgs
                    stream_chunks := some (extra ++ [emit "response_content" (.text content)]) } }

/-! ### Node: display agent (`nodes/display_agent.py`) -/

/-- `_GRAPH_TYPE_MAP`. -/
def GRAPH_TYPE_MAP : List (String × String) :=
  [("scatterplot", "ScatterPlot"), ("scatter", "ScatterPlot"),
   ("linegraph", "LineGraph"), ("line", "LineGraph"),
   ("bargraph", "BarGraph"), ("bar", "BarGraph"), ("histogram", "BarGraph")]

/-- Oracle for one `display_agent_node` call.  The JSON repair/parse chain
(`_clean_llm_json` / `_validate_json` / `json.loads` / series check) and the
chart construction (`_build_chart_object`) operate on free-form model output;
per the out-of-scope boundary they are modelled by their outcomes: an
exception text or success (carrying the resulting chart object). -/
structure DisplayOracle where
  elapsed : ℚ := 0
  llmData : LlmOutcome := {}
  nowMs : Nat := 0
  parseOutcome : Except String Unit := Except.ok ()
  buildOutcome : Except String Chart := Except.ok ⟨0⟩

/-- The `_fail(reason)` update: tool-call message pair recording the failure
(the additional `display_failed` key is not part of the `AgentState` schema,
see `StateUpdate`). -/
def displayFailUpdate (aiMsg : Message) (toolId reason : String) : StateUpdate :=
  { messages := some [aiMsg, Message.tool reason toolId]
    display_results := some [], stream_chunks := some [] }

/-- `display_agent_node`. -/
def display_agent_node (st : AgentState) (o : DisplayOracle) : NodeResult :=
  if sla_exceeded st.start_time o.elapsed then
    { update := { messages := some [], display_results := some [], stream_chunks := some [] } }
  else
    let raw_type := match chartTypeSearch st.pm_plan.toList with
      | some cap => pyLower (String.mk (pyStripChars cap))
      | none => "none"
    match (GRAPH_TYPE_MAP.find? fun p => p.1 == raw_type).map Prod.snd with
    | none =>
      { update := { messages := some [], display_results := some [], stream_chunks := some [] } }
    | some graph_type =>
      let tool_id := "tc_graph_" ++ toString o.nowMs
      let ai_msg := Message.aiToolCall "get_graph_data" graph_type tool_id
      let call := llm_call st.token_queue o.llmData
        (some "📊 Extracting chart data…") (some "✅ Data extracted") "DISPLAY-data" none
      if call.1 = "" then
        { update := displayFailUpdate ai_msg tool_id "Data processing call returned empty response"
          pushes := call.2 }
      else
        match o.parseOutcome with
        | Except.error e =>
          { update := displayFailUpdate ai_msg tool_id ("Data processing failed: " ++ e)
            pushes := call.2 }
        | Except.ok _ =>
          match o.buildOutcome with
          | Except.error e =>
            { update := displayFailUpdate ai_msg tool_id ("Chart building failed: " ++ e)
              pushes := call.2 }
          | Except.ok chart =>
            { update := { messages := some [ai_msg, Message.tool "Chart generated successfully." tool_id]
                          display_results := some [DisplayRes.one chart]
                          stream_chunks := some [] }
              pushes := call.2 }

/-! ### The compiled graph (`graph.py`, `build_graph`)

The builder registers exactly five nodes; the `validator` registration, the
`display_agent -> validator` edge and the conditional retry edge are all
commented out in the source, so the compiled `agent_graph` contains neither
the validator nor any conditional edge. -/

/-- The node names registered by `build_graph` (in registration order). -/
def graphNodes : List String :=
  ["project_manager", "thinker", "researcher", "display_agent", "response_agent"]

/-- The static edges added by `build_graph`. -/
def graphEdges : List (String × String) :=
  [("project_manager", "thinker"), ("project_manager", "researcher"),
   ("thinker", "response_agent"), ("researcher", "response_agent"),
   ("response_agent", "display_agent")]

/-- The entry point set by `set_entry_point`. -/
def entryNode : String := "project_manager"

/-- Static successors of a node. -/
def successors (n : String) : List String :=
  (graphEdges.filter fun e => e.1 == n).map Prod.snd

/-- The `after_validator` router (defined in `graph.py`; its conditional
edge is not wired into the compiled graph): loop back to the project
manager on `fail` with fewer than 2 retries, else terminate (`"END"`
models the LangGraph `END` marker). -/
def after_validator (st : AgentState) : String :=
  if st.evaluation = "fail" ∧ st.retry_count < 2 then "retry" else "END"

/-! ### Scheduler (the LangGraph Pregel engine driving `agent_graph.stream`)

Modelled from the spec: the executing engine is the external `langgraph`
library, whose scheduler the spec describes as Kahn-style superstep
execution — every ready node runs against the state produced by the
previous superstep, their updates are merged in order, and a fan-in target
becomes ready only when all its predecessors have completed (which, for
this diamond-shaped graph, the superstep frontier realizes exactly).  Each
superstep emits one `stream_mode="updates"` event mapping node names to
their raw updates, which is what `controller.run_graph` consumes. -/

/-- Per-run oracle bundle: the environment behaviour each node observes.
In this graph every node runs at most once per run. -/
structure RunOracle where
  pm : PMOracle := {}
  thinker : ThinkerOracle := {}
  researcher : ROracle := {}
  respond : RespOracle := {}
  display : DisplayOracle := {}

/-- Dispatch a registered node by name. -/
def runNode (o : RunOracle) (name : String) (st : AgentState) : NodeResult :=
  if name = "project_manager" then project_manager_node st o.pm
  else if name = "thinker" then thinker_node st o.thinker
  else if name = "researcher" then researcher_node st o.researcher
  else if name = "response_agent" then response_agent_node st o.respond
  else if name = "display_agent" then display_agent_node st o.display
  else { update := {} }

/-- One `stream_mode="updates"` event: the `(node_name, update)` pairs of a
superstep. -/
def GraphEvent : Type := List (String × StateUpdate)

/-- Result of a graph run: the final state, the execution trace (node names
in completion order), the emitted update events, and the token-queue pushes
made by node bodies while running. -/
structure ExecResult where
  state : AgentState
  trace : List String := []
  events : List GraphEvent := []
  pushes : List QItem := []

/-- Superstep execution with fuel (the frontier sequence of this acyclic
graph empties after four supersteps, so any fuel ≥ 5 is exact). -/
def execSteps (o : RunOracle) (mMerge : List Message → List Message → List Message) :
    Nat → List String → AgentState → ExecResult
  | 0, _, st => { state := st }
  | _ + 1, [], st => { state := st }
  | fuel + 1, frontier, st =>
    let results := frontier.map fun n => (n, runNode o n st)
    let st2 := results.foldl (fun s r => mergeState mMerge s r.2.update) st
    let rest := execSteps o mMerge fuel ((frontier.flatMap successors).dedup) st2
    { state := rest.state
      trace := frontier ++ rest.trace
      events := (results.map fun r => (r.1, r.2.update)) :: rest.events
      pushes := (results.flatMap fun r => r.2.pushes) ++ rest.pushes }

/-- One full run of `agent_graph` from an initial state. -/
def runAgentGraph (o : RunOracle)
    (mMerge : List Message → List Message → List Message)
    (init : AgentState) : ExecResult :=
  execSteps o mMerge 6 [entryNode] init

/-! ### Controller (`controller.py`) -/

/-- `SYSTEM_PROMPT` of the controller. -/
def SYSTEM_PROMPT : String :=
  "You are a helpful data analyst assistant. You have access to tools and should use them when appropriate. Be concise and precise in your responses."

/-- `MAX_PROMPT_LENGTH`. -/
def MAX_PROMPT_LENGTH : Nat := 2000

/-- The `initial_state` dict the controller builds for a run (keys the dict
does not set carry the `.get` defaults the nodes read them with). -/
def initial_state (prompt : String) : AgentState :=
  { messages := [Message.system SYSTEM_PROMPT, Message.human prompt]
    stream_chunks := [], display_results := [], data_fetched := false
    evaluation := "", evaluation_critique := "", retry_count := 0
    token_queue := true, start_time := true }

/-- The response of the `/chat` endpoint before any streaming starts: an
`HTTPException(400, detail)` or the `StreamingResponse` that launches the
worker thread. -/
inductive ChatResponse
  | httpError (status : Nat) (detail : String)
  | streaming (prompt : String)
deriving DecidableEq, Repr

/-- The `/chat` request guard: strip the prompt, reject empty and over-long
prompts with 400 before any graph run starts, otherwise stream the run for
the stripped prompt. -/
def chat (prompt : String) : ChatResponse :=
  let p := pyStrip prompt
  if p = "" then ChatResponse.httpError 400 "Prompt is required."
  else if MAX_PROMPT_LENGTH < p.length then
    ChatResponse.httpError 400 "Prompt too long. Maximum is 2000 characters."
  else ChatResponse.streaming p

/-- The sort key of the final flush:
`TYPE_ORDER.get(json.loads(c).get("type", "") if c.strip() else "", 99)`
with `TYPE_ORDER = {"response_content": 0, "display_modules": 1}` (every
chunk is a nonempty `emit`-built JSON string, so the parse always yields
the chunk type). -/
def typeOrderKey (c : Chunk) : Nat :=
  if c.ctype = "response_content" then 0
  else if c.ctype = "display_modules" then 1
  else 99

/-- Stable insertion of `a` after every element whose key is ≤ its own. -/
def insertByKey (key : Chunk → Nat) (a : Chunk) : List Chunk → List Chunk
  | [] => [a]
  | b :: l => if key b ≤ key a then b :: insertByKey key a l else a :: b :: l

/-- Python `list.sort(key=...)`: the stable sort by key — elements are
inserted left to right, each after every already-placed element of equal
key, which keeps equal-keyed elements in arrival order; extensionally this
is the unique stable sort Timsort also computes. -/
def sortByKey (key : Chunk → Nat) (l : List Chunk) : List Chunk :=
  l.foldl (fun acc a => insertByKey key a acc) []

/-- Append `c` to the `node_chunks` entry of `k`, creating the entry at the
end on first use (`dict.setdefault(k, []).append(c)` under insertion-order
iteration). -/
def addChunk (m : List (String × List Chunk)) (k : String) (c : Chunk) :
    List (String × List Chunk) :=
  if m.any fun e => e.1 == k then
    m.map fun e => if e.1 == k then (e.1, e.2 ++ [c]) else e
  else m ++ [(k, [c])]

/-- Processing of one `(node_name, node_state)` entry of an event by the
`run_graph` loop: route `thinking_content` chunks to the thinking queue,
buffer the rest under the node name, and synthesize the
`display_agent_emit` chunk when the display agent reported results. -/
def processEntry (acc : List (String × List Chunk) × List QItem)
    (entry : String × StateUpdate) : List (String × List Chunk) × List QItem :=
  let chunks := entry.2.stream_chunks.getD []
  let acc := chunks.foldl (fun a c =>
    if c.ctype = "thinking_content" then (a.1, a.2 ++ [QItem.chunk c])
    else (addChunk a.1 entry.1 c, a.2)) acc
  if entry.1 = "display_agent" then
    let dr := entry.2.display_results.getD []
    if dr = [] then acc
    else (addChunk acc.1 "display_agent_emit" (emit "display_modules" (.modules (flattenDisplay dr))), acc.2)
  else acc

/-- The event-loop phase of `run_graph` over the events the stream yielded
before terminating (normally or by exception): the buffered `node_chunks`
map and the chunks pushed live onto the thinking queue. -/
def collectRun (events : List GraphEvent) : List (String × List Chunk) × List QItem :=
  events.foldl (fun acc ev => ev.foldl processEntry acc) ([], [])

/-- The generic error chunk `run_graph` substitutes when the stream raised. -/
def ERROR_CHUNK : Chunk :=
  ⟨"response_content", .text "Something went wrong. Please try again."⟩

/-- The buffered final chunks at flush time, in `node_chunks` iteration
order, including the `__error__` entry when the stream raised. -/
def allFinalChunks (events : List GraphEvent) (errored : Bool) : List Chunk :=
  let m := (collectRun events).1
  let m := if errored then m ++ [("__error__", [ERROR_CHUNK])] else m
  m.flatMap Prod.snd

/-- `run_graph`: everything the worker pushes onto the two queues, in push
order — the live thinking chunks followed by the thinking sentinel, and the
priority-sorted final flush followed by the result sentinel.  `events` are
the updates the graph stream yielded before it finished; `errored` is true
when it terminated by raising (the `except` branch), in which case `events`
is the prefix processed before the exception. -/
def runGraphPushes (events : List GraphEvent) (errored : Bool) :
    List QItem × List QItem :=
  ((collectRun events).2 ++ [QItem.graphDone],
   (sortByKey typeOrderKey (allFinalChunks events errored)).map QItem.chunk
     ++ [QItem.graphDone])

/-- Items a consumer loop `while True: item = q.get(); if item ==
"__graph_done__": break; yield item` takes from a queue holding `l`. -/
def drainUntilDone (l : List QItem) : List QItem :=
  l.takeWhile (· ≠ QItem.graphDone)

/-- The `generate` consumer, as a function of the two queues final
contents: drain the thinking queue up to its sentinel (skipping
`__thinking_done__` markers), join the worker thread, then drain the result
queue up to its sentinel.  The yielded items, in order. -/
def generate (tq rq : List QItem) : List QItem :=
  (drainUntilDone tq).filter (· ≠ QItem.thinkingDone) ++ drainUntilDone rq

/-- The caller-facing stream of one run: the thinking queue receives the
node-body pushes and the controller re-pushes (`nodeTok` and
`(runGraphPushes …).1`; the sentinel of the latter arrives last since it is
pushed after the graph finished), the result queue receives the final
flush.  `nodeTok` stands for the node-body pushes in their interleaved
arrival positions. -/
def full_stream (nodeTok : List QItem) (events : List GraphEvent) (errored : Bool) :
    List QItem :=
  generate (nodeTok ++ (runGraphPushes events errored).1)
    (runGraphPushes events errored).2

/-- Predicate: every item of `l` is a `thinking_content` chunk (the shape
of everything the `run_graph` event loop pushes onto the thinking queue). -/
def ThinkOnly (l : List QItem) : Prop :=
  ∀ q ∈ l, ∃ c, q = QItem.chunk c ∧ c.ctype = "thinking_content"

/-- Predicate: every chunk buffered in a `node_chunks` map has a
non-`thinking_content` type. -/
def FinalOnly (m : List (String × List Chunk)) : Prop :=
  ∀ e ∈ m, ∀ c ∈ e.2, c.ctype ≠ "thinking_content"

/-! ## Supporting lemmas -/

theorem insertByKey_perm (key : Chunk → Nat) (a : Chunk) (l : List Chunk) :
    (insertByKey key a l).Perm (a :: l) := by
  induction l with
  | nil => simp [insertByKey]
  | cons b t ih =>
    simp only [insertByKey]
    split
    · exact ((ih.cons b).trans (List.Perm.swap a b t))
    · exact List.Perm.refl _

theorem sortByKey_perm (key : Chunk → Nat) (l : List Chunk) :
    (sortByKey key l).Perm l := by
  suffices h : ∀ (l acc : List Chunk),
      (l.foldl (fun acc a => insertByKey key a acc) acc).Perm (acc ++ l) by
    simpa using h l []
  intro l
  induction l with
  | nil => simp
  | cons a t ih =>
    intro acc
    have h1 := ih (insertByKey key a acc)
    have h2 : (insertByKey key a acc ++ t).Perm (acc ++ a :: t) :=
      ((insertByKey_perm key a acc).append_right t).trans List.perm_middle.symm
    simpa [List.foldl_cons] using h1.trans h2

theorem mem_insertByKey {key : Chunk → Nat} {a x : Chunk} {l : List Chunk}
    (hx : x ∈ insertByKey key a l) : x = a ∨ x ∈ l := by
  have := (insertByKey_perm key a l).mem_iff.mp hx
  simpa using this

theorem pairwise_insertByKey {key : Chunk → Nat} {a : Chunk} {l : List Chunk}
    (h : l.Pairwise fun x y => key x ≤ key y) :
    (insertByKey key a l).Pairwise fun x y => key x ≤ key y := by
  induction l with
  | nil => simp [insertByKey]
  | cons b t ih =>
    rw [List.pairwise_cons] at h
    simp only [insertByKey]
    split
    · rename_i hba
      refine List.pairwise_cons.mpr ⟨?_, ih h.2⟩
      intro x hx
      rcases mem_insertByKey hx with rfl | hxt
      · exact hba
      · exact h.1 x hxt
    · rename_i hba
      refine List.pairwise_cons.mpr ⟨?_, List.pairwise_cons.mpr h⟩
      intro x hx
      rcases List.mem_cons.mp hx with rfl | hxt
      · omega
      · exact le_trans (by omega) (h.1 x hxt)

theorem sortByKey_sorted (key : Chunk → Nat) (l : List Chunk) :
    (sortByKey key l).Pairwise fun x y => key x ≤ key y := by
  suffices h : ∀ (l acc : List Chunk), (acc.Pairwise fun x y => key x ≤ key y) →
      (l.foldl (fun acc a => insertByKey key a acc) acc).Pairwise fun x y => key x ≤ key y by
    exact h l [] (by simp)
  intro l
  induction l with
  | nil => intro acc hacc; simpa using hacc
  | cons a t ih =>
    intro acc hacc
    exact ih (insertByKey key a acc) (pairwise_insertByKey hacc)

theorem addChunk_finalOnly {m : List (String × List Chunk)} {k : String} {c : Chunk}
    (hm : FinalOnly m) (hc : c.ctype ≠ "thinking_content") :
    FinalOnly (addChunk m k c) := by
  unfold addChunk
  split
  · intro e he x hx
    rcases List.mem_map.mp he with ⟨e0, he0, rfl⟩
    by_cases hk : (e0.1 == k) = true
    · simp only [hk, if_pos] at hx
      rcases List.mem_append.mp hx with hx | hx
      · exact hm e0 he0 x hx
      · simp only [List.mem_singleton] at hx
        subst hx; exact hc
    · simp only [hk] at hx
      simp only [Bool.false_eq_true, if_false] at hx
      exact hm e0 he0 x hx
  · intro e he x hx
    rcases List.mem_append.mp he with he | he
    · exact hm e he x hx
    · simp only [List.mem_singleton] at he
      subst he
      simp only [List.mem_singleton] at hx
      subst hx; exact hc

theorem processEntry_inv {acc : List (String × List Chunk) × List QItem}
    {entry : String × StateUpdate}
    (h1 : FinalOnly acc.1) (h2 : ThinkOnly acc.2) :
    FinalOnly (processEntry acc entry).1 ∧ ThinkOnly (processEntry acc entry).2 := by
  have hfold : ∀ (cs : List Chunk) (a : List (String × List Chunk) × List QItem),
      FinalOnly a.1 → ThinkOnly a.2 →
      FinalOnly (cs.foldl (fun a c =>
        if c.ctype = "thinking_content" then (a.1, a.2 ++ [QItem.chunk c])
        else (addChunk a.1 entry.1 c, a.2)) a).1 ∧
      ThinkOnly (cs.foldl (fun a c =>
        if c.ctype = "thinking_content" then (a.1, a.2 ++ [QItem.chunk c])
        else (addChunk a.1 entry.1 c, a.2)) a).2 := by
    intro cs
    induction cs with
    | nil => intro a ha1 ha2; exact ⟨ha1, ha2⟩
    | cons c t ih =>
      intro a ha1 ha2
      by_cases hc : c.ctype = "thinking_content"
      · have ha2x : ThinkOnly (a.2 ++ [QItem.chunk c]) := by
          intro q hq
          rcases List.mem_append.mp hq with hq | hq
          · exact ha2 q hq
          · simp only [List.mem_singleton] at hq
            exact ⟨c, hq, hc⟩
        have := ih (a.1, a.2 ++ [QItem.chunk c]) ha1 ha2x
        simpa [hc] using this
      · have := ih (addChunk a.1 entry.1 c, a.2) (addChunk_finalOnly ha1 hc) ha2
        simpa [hc] using this
  have hbase := hfold (entry.2.stream_chunks.getD []) acc h1 h2
  unfold processEntry
  simp only []
  split
  · split
    · exact hbase
    · exact ⟨addChunk_finalOnly hbase.1 (by simp [emit]), hbase.2⟩
  · exact hbase

theorem collectRun_inv (events : List GraphEvent) :
    FinalOnly (collectRun events).1 ∧ ThinkOnly (collectRun events).2 := by
  unfold collectRun
  suffices h : ∀ (evs : List GraphEvent) (acc : List (String × List Chunk) × List QItem),
      FinalOnly acc.1 → ThinkOnly acc.2 →
      FinalOnly (evs.foldl (fun acc ev => ev.foldl processEntry acc) acc).1 ∧
      ThinkOnly (evs.foldl (fun acc ev => ev.foldl processEntry acc) acc).2 by
    exact h events ([], []) (by intro e he; simp at he) (by intro q hq; simp at hq)
  intro evs
  induction evs with
  | nil => intro acc h1 h2; exact ⟨h1, h2⟩
  | cons ev t ih =>
    intro acc h1 h2
    refine ih _ ?_ ?_ |>.imp id id
    all_goals
      have : ∀ (entries : List (String × StateUpdate))
          (a : List (String × List Chunk) × List QItem), FinalOnly a.1 → ThinkOnly a.2 →
          FinalOnly (entries.foldl processEntry a).1 ∧ ThinkOnly (entries.foldl processEntry a).2 := by
        intro entries
        induction entries with
        | nil => intro a ha1 ha2; exact ⟨ha1, ha2⟩
        | cons e et ihe =>
          intro a ha1 ha2
          exact ihe _ (processEntry_inv ha1 ha2).1 (processEntry_inv ha1 ha2).2
      first
      | exact (this ev acc h1 h2).1
      | exact (this ev acc h1 h2).2

/-- Every buffered final chunk (including the error chunk) has a
non-`thinking_content` type. -/
theorem allFinalChunks_not_thinking (events : List GraphEvent) (errored : Bool) :
    ∀ c ∈ allFinalChunks events errored, c.ctype ≠ "thinking_content" := by
  intro c hc
  unfold allFinalChunks at hc
  rcases List.mem_flatMap.mp hc with ⟨e, he, hce⟩
  by_cases herr : errored
  · simp only [herr, if_pos] at he
    rcases List.mem_append.mp he with he | he
    · exact (collectRun_inv events).1 e he c hce
    · simp only [List.mem_singleton] at he
      subst he
      simp only [List.mem_singleton] at hce
      subst hce
      simp [ERROR_CHUNK]
  · simp only [herr] at he
    simp only [Bool.false_eq_true, if_false] at he
    exact (collectRun_inv events).1 e he c hce

/-- Draining a queue that ends in its (unique) sentinel yields exactly the
items before the sentinel. -/
theorem drainUntilDone_append {l : List QItem} (h : ∀ q ∈ l, q ≠ QItem.graphDone) :
    drainUntilDone (l ++ [QItem.graphDone]) = l := by
  induction l with
  | nil => simp [drainUntilDone]
  | cons a t ih =>
    have ha := h a (by simp)
    have iht := ih fun q hq => h q (by simp [hq])
    unfold drainUntilDone at iht ⊢
    simpa [List.takeWhile_cons, ha] using iht

/-- The worker pushes the sentinel onto the thinking queue exactly once. -/
theorem thinking_done_count (events : List GraphEvent) (errored : Bool) :
    (runGraphPushes events errored).1.count QItem.graphDone = 1 := by
  unfold runGraphPushes
  rw [List.count_append]
  have h0 : (collectRun events).2.count QItem.graphDone = 0 := by
    rw [List.count_eq_zero]
    intro hmem
    rcases (collectRun_inv events).2 _ hmem with ⟨c, hc, _⟩
    exact absurd hc (by simp)
  simp [h0]

/-- The worker pushes the sentinel onto the result queue exactly once. -/
theorem result_done_count (events : List GraphEvent) (errored : Bool) :
    (runGraphPushes events errored).2.count QItem.graphDone = 1 := by
  unfold runGraphPushes
  rw [List.count_append]
  have h0 : ((sortByKey typeOrderKey (allFinalChunks events errored)).map
      QItem.chunk).count QItem.graphDone = 0 := by
    rw [List.count_eq_zero]
    intro hmem
    rcases List.mem_map.mp hmem with ⟨c, _, hc⟩
    exact absurd hc (by simp)
  simp [h0]

/-! ## Claim theorems -/

/-- C1: for every run of the chat streaming endpoint — whatever update
events the graph stream yielded and whether it finished normally, raised,
or exited early on the deadline (an early exit is a normal termination of
the stream with fallback updates) — the `run_graph` worker pushes the
`__graph_done__` sentinel exactly once onto the thinking queue and exactly
once onto the result queue, so the consumer loops draining each queue
always reach a sentinel. -/
theorem c1_sentinels_exactly_once (events : List GraphEvent) (errored : Bool) :
    (runGraphPushes events errored).1.count QItem.graphDone = 1 ∧
    (runGraphPushes events errored).2.count QItem.graphDone = 1 :=
  ⟨thinking_done_count events errored, result_done_count events errored⟩

/-- C2: for every run, the result queue receives exactly one block of final
chunks, flushed after the graph has terminated and immediately followed by
the sentinel; the block is a permutation of the buffered final chunks that
is sorted by the fixed type-priority table (`response_content` = 0 before
`display_modules` = 1, unknown types = 99 last), regardless of which node
buffered each chunk or in which order the events arrived. -/
theorem c2_final_flush_sorted (events : List GraphEvent) (errored : Bool) :
    ∃ fin : List Chunk,
      (runGraphPushes events errored).2 = fin.map QItem.chunk ++ [QItem.graphDone] ∧
      fin.Perm (allFinalChunks events errored) ∧
      fin.Pairwise (fun a b => typeOrderKey a ≤ typeOrderKey b) := by
  exact ⟨sortByKey typeOrderKey (allFinalChunks events errored), rfl,
    sortByKey_perm _ _, sortByKey_sorted _ _⟩

/-- C3: the claim is about the reducers `state.py` actually declares, and
the code contradicts its own test suite there.  `merge_lists` (which the
tests document as the reducer, exercising `None` operands) does satisfy the
claimed identities and associativity; but the `Annotated` declarations of
`stream_chunks` and `display_results` attach the bare `lambda a, b: a + b`,
which raises `TypeError` on a missing/`None` operand instead of treating it
as the zero value, so `merge(∅, X) = X` fails for the declared reducer at
`∅ = None`. -/
theorem c3_declared_reducer_rejects_none :
    annotated_add_reducer none (some ["x"]) = none ∧
    annotated_add_reducer (some ["x"]) none = none ∧
    merge_lists none (some ["x"]) = ["x"] ∧
    merge_lists (some ["x"]) none = ["x"] ∧
    (∀ (x : List Chunk), merge_lists none (some x) = x ∧
      merge_lists (some x) none = x ∧ merge_lists (some []) (some x) = x ∧
      merge_lists (some x) (some []) = x) ∧
    (∀ (a b c : List Chunk),
      merge_lists (some (a ++ b)) (some c) = a ++ merge_lists (some b) (some c)) := by
  refine ⟨rfl, rfl, rfl, rfl, ?_, ?_⟩
  · intro x
    refine ⟨?_, ?_, ?_, ?_⟩ <;> simp [merge_lists]
  · intro a b c
    simp [merge_lists]

/-- C10: the `/chat` endpoint raises `HTTPException(400)` — before
constructing any queue, state or worker thread — exactly when the
whitespace-stripped prompt is empty or longer than `MAX_PROMPT_LENGTH` =
2000 characters, and otherwise returns the streaming response that starts
the run. -/
theorem c10_prompt_guard (prompt : String) :
    ((∃ d, chat prompt = ChatResponse.httpError 400 d) ↔
      (pyStrip prompt = "" ∨ MAX_PROMPT_LENGTH < (pyStrip prompt).length)) ∧
    (pyStrip prompt ≠ "" ∧ (pyStrip prompt).length ≤ MAX_PROMPT_LENGTH →
      chat prompt = ChatResponse.streaming (pyStrip prompt)) := by
  by_cases h1 : pyStrip prompt = ""
  · have hc : chat prompt = ChatResponse.httpError 400 "Prompt is required." := by
      simp only [chat]
      rw [if_pos h1]
    refine ⟨⟨fun _ => Or.inl h1, fun _ => ⟨_, hc⟩⟩, ?_⟩
    rintro ⟨h, _⟩
    exact absurd h1 h
  · by_cases h2 : MAX_PROMPT_LENGTH < (pyStrip prompt).length
    · have hc : chat prompt =
          ChatResponse.httpError 400 "Prompt too long. Maximum is 2000 characters." := by
        simp only [chat]
        rw [if_neg h1, if_pos h2]
      refine ⟨⟨fun _ => Or.inr h2, fun _ => ⟨_, hc⟩⟩, ?_⟩
      rintro ⟨_, h⟩
      omega
    · have hc : chat prompt = ChatResponse.streaming (pyStrip prompt) := by
        simp only [chat]
        rw [if_neg h1, if_neg h2]
      refine ⟨⟨?_, ?_⟩, fun _ => hc⟩
      · rintro ⟨d, hd⟩
        rw [hc] at hd
        exact absurd hd (by simp)
      · rintro (h | h)
        · exact absurd h h1
        · exact absurd h h2

/-- C10 witness: a concrete prompt that passes the guard. -/
theorem c10_prompt_guard_witness :
    chat "  hello there  " = ChatResponse.streaming "hello there" :=
  (c10_prompt_guard "  hello there  ").2 (by constructor <;> decide)

/-- C5: for every run, the caller-facing stream decomposes as all interim
(`thinking_content`) items first, then all final items: the consumer drains
the thinking queue — which holds the node-body pushes `nodeTok` and the
worker re-pushes — up to its sentinel, and only afterwards (after joining
the worker) yields the result-queue items, every one of which is a
non-interim chunk of the final flush.  Interim and final items are never
interleaved. -/
theorem c5_interim_before_final (nodeTok : List QItem) (events : List GraphEvent)
    (errored : Bool)
    (hn : ∀ q ∈ nodeTok, q = QItem.thinkingDone ∨
      ∃ c, q = QItem.chunk c ∧ c.ctype = "thinking_content") :
    ∃ A B, full_stream nodeTok events errored = A ++ B ∧
      (∀ q ∈ A, ∃ c, q = QItem.chunk c ∧ c.ctype = "thinking_content") ∧
      (∀ q ∈ B, ∃ c, q = QItem.chunk c ∧ c.ctype ≠ "thinking_content") := by
  have hthink := (collectRun_inv events).2
  have hTqNoDone : ∀ q ∈ nodeTok ++ (collectRun events).2, q ≠ QItem.graphDone := by
    intro q hq
    rcases List.mem_append.mp hq with hq | hq
    · rcases hn q hq with rfl | ⟨c, rfl, _⟩ <;> simp
    · rcases hthink q hq with ⟨c, rfl, _⟩
      simp
  have hRqNoDone : ∀ q ∈ (sortByKey typeOrderKey (allFinalChunks events errored)).map
      QItem.chunk, q ≠ QItem.graphDone := by
    intro q hq
    rcases List.mem_map.mp hq with ⟨c, _, rfl⟩
    simp
  refine ⟨(nodeTok ++ (collectRun events).2).filter (· ≠ QItem.thinkingDone),
    (sortByKey typeOrderKey (allFinalChunks events errored)).map QItem.chunk, ?_, ?_, ?_⟩
  · unfold full_stream generate runGraphPushes
    rw [show nodeTok ++ ((collectRun events).2 ++ [QItem.graphDone]) =
      (nodeTok ++ (collectRun events).2) ++ [QItem.graphDone] by simp,
      drainUntilDone_append hTqNoDone, drainUntilDone_append hRqNoDone]
  · intro q hq
    have hmem := List.mem_of_mem_filter hq
    have hne : q ≠ QItem.thinkingDone := by simpa using List.of_mem_filter hq
    rcases List.mem_append.mp hmem with hm | hm
    · rcases hn q hm with rfl | h
      · exact absurd rfl hne
      · exact h
    · exact hthink q hm
  · intro q hq
    rcases List.mem_map.mp hq with ⟨c, hc, rfl⟩
    have hcin : c ∈ allFinalChunks events errored :=
      (sortByKey_perm typeOrderKey (allFinalChunks events errored)).mem_iff.mp hc
    exact ⟨c, rfl, allFinalChunks_not_thinking events errored c hcin⟩

/-- C5 witness: a concrete run — the thinker pushed a live token followed
by its marker, its event re-pushes the thinking chunk, and the response
agent event carries a final chunk. -/
theorem c5_interim_before_final_witness :
    ∃ A B, full_stream
      [QItem.chunk (emit "thinking_content" (.text "working on it")), QItem.thinkingDone]
      [[("thinker", { stream_chunks := some [emit "thinking_content" (.text "working on it")] })],
       [("response_agent", { stream_chunks := some [emit "response_content" (.text "done")] })]]
      false = A ++ B ∧
      (∀ q ∈ A, ∃ c, q = QItem.chunk c ∧ c.ctype = "thinking_content") ∧
      (∀ q ∈ B, ∃ c, q = QItem.chunk c ∧ c.ctype ≠ "thinking_content") :=
  c5_interim_before_final
    [QItem.chunk (emit "thinking_content" (.text "working on it")), QItem.thinkingDone]
    _ false (by
      intro q hq
      rcases List.mem_cons.mp hq with rfl | hq
      · exact Or.inr ⟨emit "thinking_content" (.text "working on it"), rfl, rfl⟩
      · rcases List.mem_singleton.mp hq with rfl
        exact Or.inl rfl)

/-- C6 counterexample: the thinker is the node that normally streams an
interim item, yet when it observes the deadline exceeded at its entry check
it returns without pushing anything onto the token queue — no fallback
interim item is emitted, refuting the second half of the claim. -/
theorem c6_counterexample :
    sla_exceeded ({ pm_plan := "explain the plan" } : AgentState).start_time 2000 = true ∧
    (thinker_node { pm_plan := "explain the plan" }
      { elapsed := 2000, llm := some "some narration" }).pushes = [] := by
  constructor <;> decide

/-- C6 amended: every registered node observing the deadline exceeded at
its entry check returns its minimal fallback update instead of doing its
normal work (the response agent even returns a fallback final chunk) — but
the thinker pushes no fallback interim item on that path: it returns with
an untouched token queue. -/
theorem c6_sla_fallbacks (st : AgentState) (q : ℚ)
    (pmllm thllm rsllm : Option String) (ro : ROracle) (dso : DisplayOracle)
    (h : sla_exceeded st.start_time q = true) :
    project_manager_node st { elapsed := q, llm := pmllm } =
      { update := { messages := some [], pm_plan := some "",
                    stream_chunks := some [], display_results := some [] } } ∧
    thinker_node st { elapsed := q, llm := thllm } =
      { update := { messages := some [], stream_chunks := some [] }, pushes := [] } ∧
    researcher_run st { ro with elapsed := q } =
      ({ messages := some [], stream_chunks := some [], data_fetched := some false }, {}) ∧
    response_agent_node st { elapsed := q, llm := rsllm } =
      { update := { messages := some []
                    stream_chunks := some [emit "response_content" (.text RESPOND_SLA_MSG)] } } ∧
    display_agent_node st { dso with elapsed := q } =
      { update := { messages := some [], display_results := some [],
                    stream_chunks := some [] } } := by
  refine ⟨?_, ?_, ?_, ?_, ?_⟩
  · simp [project_manager_node, h]
  · simp [thinker_node, h]
  · simp [researcher_run, h]
  · simp [response_agent_node, h]
  · simp [display_agent_node, h]

/-- C6 amended witness: the researcher and response agent fallbacks at a
concrete deadline-exceeded state. -/
theorem c6_sla_fallbacks_witness :
    researcher_run { pm_plan := "DATA_NEEDED: prices" } { elapsed := 1001 } =
      ({ messages := some [], stream_chunks := some [], data_fetched := some false }, {}) ∧
    response_agent_node { pm_plan := "DATA_NEEDED: prices" } { elapsed := 1001 } =
      { update := { messages := some []
                    stream_chunks := some [emit "response_content" (.text RESPOND_SLA_MSG)] } } := by
  have h := c6_sla_fallbacks { pm_plan := "DATA_NEEDED: prices" } 1001
    (some "") (some "") (some "") {} {} (by decide)
  exact ⟨h.2.2.1, h.2.2.2.1⟩

/-- C7: whenever the project-manager plan's `DATA_NEEDED` line reads
`none`, `n/a` or is empty (including a missing line, which extracts to the
empty string), the researcher node invokes no tool and makes no planner
call, returning `data_fetched = true` with empty `messages` and empty
`stream_chunks`. -/
theorem c7_researcher_skip (st : AgentState) (o : ROracle)
    (h1 : sla_exceeded st.start_time o.elapsed = false)
    (h2 : pyLower (extractedDataNeeded st.pm_plan) = "none" ∨
      pyLower (extractedDataNeeded st.pm_plan) = "n/a" ∨
      pyLower (extractedDataNeeded st.pm_plan) = "") :
    researcher_run st o =
      ({ messages := some [], stream_chunks := some [], data_fetched := some true }, {}) ∧
    (researcher_run st o).2.toolInvocations = [] ∧
    (researcher_run st o).2.plannerCalls = 0 := by
  have hmain : researcher_run st o =
      ({ messages := some [], stream_chunks := some [], data_fetched := some true }, {}) := by
    rcases h2 with h | h | h <;> simp [researcher_run, h1, h]
  exact ⟨hmain, by rw [hmain], by rw [hmain]⟩

/-- C7 witness: a concrete plan with `DATA_NEEDED: none`. -/
theorem c7_researcher_skip_witness :
    researcher_run
      { pm_plan := "STEPS: 1. Greet the user.\nDATA_NEEDED: none\nOUTPUT_FORMAT: text\nCHART_TYPE: none" }
      {} =
      ({ messages := some [], stream_chunks := some [], data_fetched := some true }, {}) :=
  (c7_researcher_skip
    { pm_plan := "STEPS: 1. Greet the user.\nDATA_NEEDED: none\nOUTPUT_FORMAT: text\nCHART_TYPE: none" }
    {} (by decide) (by decide)).1

/-- Every pass through the researcher loop makes at most one planner call,
so `fuel` passes add at most `fuel` planner calls. -/
theorem researcher_loop_plannerCalls (o : ROracle) (hs : Bool) :
    ∀ (fuel it : Nat) (acc : RLoopState),
      (researcher_loop o hs it fuel acc).plannerCalls ≤ acc.plannerCalls + fuel := by
  intro fuel
  induction fuel with
  | zero =>
    intro it acc
    simp [researcher_loop]
  | succ fuel ih =>
    intro it acc
    rw [researcher_loop]
    split
    · omega
    · simp only []
      repeat'
        first
        | exact le_trans (ih (it + 1) _) (by simp <;> omega)
        | (simp <;> omega)
        | split

/-- Every pass through the researcher loop invokes at most one tool. -/
theorem researcher_loop_toolCalls (o : ROracle) (hs : Bool) :
    ∀ (fuel it : Nat) (acc : RLoopState),
      (researcher_loop o hs it fuel acc).toolInvocations.length ≤
        acc.toolInvocations.length + fuel := by
  intro fuel
  induction fuel with
  | zero =>
    intro it acc
    simp [researcher_loop]
  | succ fuel ih =>
    intro it acc
    rw [researcher_loop]
    split
    · omega
    · simp only []
      repeat'
        first
        | exact le_trans (ih (it + 1) _) (by simp <;> omega)
        | (simp <;> omega)
        | split

/-- The loop's iteration counter never exceeds `it + fuel`. -/
theorem researcher_loop_iters (o : ROracle) (hs : Bool) :
    ∀ (fuel it : Nat) (acc : RLoopState), acc.iterationsRun ≤ it →
      (researcher_loop o hs it fuel acc).iterationsRun ≤ it + fuel := by
  intro fuel
  induction fuel with
  | zero =>
    intro it acc h
    simp only [researcher_loop]
    omega
  | succ fuel ih =>
    intro it acc h
    rw [researcher_loop]
    split
    · omega
    · simp only []
      repeat'
        first
        | exact le_trans (ih (it + 1) _ (by simp)) (by omega)
        | (simp <;> omega)
        | split

/-- Combined loop bounds. -/
theorem researcher_loop_bounds (o : ROracle) (hs : Bool) :
    ∀ (fuel it : Nat) (acc : RLoopState),
      (researcher_loop o hs it fuel acc).plannerCalls ≤ acc.plannerCalls + fuel ∧
      (researcher_loop o hs it fuel acc).toolInvocations.length ≤
        acc.toolInvocations.length + fuel ∧
      (acc.iterationsRun ≤ it →
        (researcher_loop o hs it fuel acc).iterationsRun ≤ it + fuel) :=
  fun fuel it acc =>
    ⟨researcher_loop_plannerCalls o hs fuel it acc,
     researcher_loop_toolCalls o hs fuel it acc,
     researcher_loop_iters o hs fuel it acc⟩

/-- C9: the researcher agentic loop always terminates, performing at most
`RESEARCHER_MAX_ITERATIONS` = 10 iterations per request — hence at most 10
planner calls and at most 10 tool invocations — whatever the planner
answers (never `DONE`, unparseable output, unknown tool names) and whatever
the tools return (including errors on every call). -/
theorem c9_researcher_loop_bounded (st : AgentState) (o : ROracle) :
    (researcher_run st o).2.plannerCalls ≤ RESEARCHER_MAX_ITERATIONS ∧
    (researcher_run st o).2.toolInvocations.length ≤ RESEARCHER_MAX_ITERATIONS ∧
    (researcher_run st o).2.iterationsRun ≤ RESEARCHER_MAX_ITERATIONS := by
  unfold researcher_run
  split
  · exact ⟨by simp [RESEARCHER_MAX_ITERATIONS], by simp [RESEARCHER_MAX_ITERATIONS],
      by simp [RESEARCHER_MAX_ITERATIONS]⟩
  · simp only []
    split
    · exact ⟨by simp [RESEARCHER_MAX_ITERATIONS], by simp [RESEARCHER_MAX_ITERATIONS],
        by simp [RESEARCHER_MAX_ITERATIONS]⟩
    · have h := researcher_loop_bounds o st.start_time RESEARCHER_MAX_ITERATIONS 0 {}
      exact ⟨by simpa using h.1, by simpa using h.2.1, by simpa using h.2.2 (by simp)⟩

/-- C8: exceptions raised inside node bodies are recovered into user-safe
fallbacks rather than crashing the run.  (a) A raising LLM call inside the
project manager yields the placeholder plan update; (b) a raising LLM call
inside the response agent yields the apology final chunk; (c) an exception
that does escape onto the graph stream is caught by the worker, which still
flushes a well-formed generic final item and terminates both channels with
their sentinel, so the caller never hangs. -/
theorem c8_node_failure_fallbacks :
    (∀ (st : AgentState) (q : ℚ), sla_exceeded st.start_time q = false →
      project_manager_node st { elapsed := q, llm := none } =
        { update := { messages := some [], pm_plan := some PM_FALLBACK_PLAN,
                      stream_chunks := some [], display_results := some [] } }) ∧
    (∀ (st : AgentState) (q : ℚ), sla_exceeded st.start_time q = false →
      st.display_results = [] →
      (pyLower (extractedDataNeeded st.pm_plan) = "none" ∨ st.data_fetched = true) →
      response_agent_node st { elapsed := q, llm := none } =
        { update := { messages := some []
                      stream_chunks := some [emit "response_content" (.text RESPOND_FAIL_MSG)] } }) ∧
    (∀ (events : List GraphEvent),
      QItem.chunk ERROR_CHUNK ∈ (runGraphPushes events true).2 ∧
      (runGraphPushes events true).2.count QItem.graphDone = 1 ∧
      (runGraphPushes events true).1.count QItem.graphDone = 1) := by
  refine ⟨?_, ?_, ?_⟩
  · intro st q h
    simp [project_manager_node, h]
  · intro st q h hdr hnd
    have hfallback : ¬ (RESPOND_FAIL_MSG = "" ∨
        strLeads "no output generated" (pyLower RESPOND_FAIL_MSG) = true) := by decide
    rcases hnd with hnd | hnd
    · simp [response_agent_node, h, hdr, hnd, hfallback]
    · simp [response_agent_node, h, hdr, hnd, hfallback]
  · intro events
    refine ⟨?_, result_done_count events true, thinking_done_count events true⟩
    have hmem : ERROR_CHUNK ∈ allFinalChunks events true := by
      unfold allFinalChunks
      simp only [if_pos]
      refine List.mem_flatMap.mpr ⟨("__error__", [ERROR_CHUNK]), by simp, by simp⟩
    have hsorted : ERROR_CHUNK ∈ sortByKey typeOrderKey (allFinalChunks events true) :=
      (sortByKey_perm typeOrderKey (allFinalChunks events true)).mem_iff.mpr hmem
    unfold runGraphPushes
    exact List.mem_append.mpr (Or.inl (List.mem_map.mpr ⟨ERROR_CHUNK, hsorted, rfl⟩))

/-- C8 witness: the fallbacks at concrete inputs — the project manager and
response agent with a raising LLM on a fresh state, and an errored run with
no processed events. -/
theorem c8_node_failure_fallbacks_witness :
    project_manager_node (initial_state "hi") { elapsed := 0, llm := none } =
      { update := { messages := some [], pm_plan := some PM_FALLBACK_PLAN,
                    stream_chunks := some [], display_results := some [] } } ∧
    QItem.chunk ERROR_CHUNK ∈ (runGraphPushes [] true).2 := by
  refine ⟨c8_node_failure_fallbacks.1 (initial_state "hi") 0 (by decide), ?_⟩
  exact (c8_node_failure_fallbacks.2.2 []).1

/-- The project manager never writes the `evaluation` channel. -/
theorem pm_evaluation_none (st : AgentState) (o : PMOracle) :
    (project_manager_node st o).update.evaluation = none := by
  unfold project_manager_node
  split <;> rfl

/-- The thinker never writes the `evaluation` channel. -/
theorem thinker_evaluation_none (st : AgentState) (o : ThinkerOracle) :
    (thinker_node st o).update.evaluation = none := by
  unfold thinker_node
  repeat' split
  all_goals rfl

/-- The researcher never writes the `evaluation` channel. -/
theorem researcher_evaluation_none (st : AgentState) (o : ROracle) :
    (researcher_node st o).update.evaluation = none := by
  unfold researcher_node researcher_run
  simp only []
  repeat' split
  all_goals rfl

/-- The response agent never writes the `evaluation` channel. -/
theorem respond_evaluation_none (st : AgentState) (o : RespOracle) :
    (response_agent_node st o).update.evaluation = none := by
  unfold response_agent_node
  simp only []
  repeat' split
  all_goals rfl

/-- The display agent never writes the `evaluation` channel. -/
theorem display_evaluation_none (st : AgentState) (o : DisplayOracle) :
    (display_agent_node st o).update.evaluation = none := by
  unfold display_agent_node
  simp only []
  repeat' split
  all_goals rfl

/-- No node registered on the compiled graph writes `evaluation` (the
validator, which would, is commented out of `build_graph`). -/
theorem runNode_evaluation_none (o : RunOracle) (name : String) (st : AgentState) :
    (runNode o name st).update.evaluation = none := by
  unfold runNode
  repeat' split
  all_goals first
    | exact pm_evaluation_none st o.pm
    | exact thinker_evaluation_none st o.thinker
    | exact researcher_evaluation_none st o.researcher
    | exact respond_evaluation_none st o.respond
    | exact display_evaluation_none st o.display
    | rfl

/-- Merging updates that carry no `evaluation` leaves the field unchanged. -/
theorem foldMerge_evaluation (m : List Message → List Message → List Message)
    (l : List (String × NodeResult)) :
    ∀ st : AgentState, (∀ r ∈ l, r.2.update.evaluation = none) →
      (l.foldl (fun s r => mergeState m s r.2.update) st).evaluation = st.evaluation := by
  induction l with
  | nil => intro st _; rfl
  | cons a t ih =>
    intro st h
    rw [List.foldl_cons, ih _ fun r hr => h r (by simp [hr])]
    simp [mergeState, h a (by simp)]

/-- The scheduler never changes the `evaluation` field on this graph. -/
theorem execSteps_evaluation (o : RunOracle)
    (m : List Message → List Message → List Message) :
    ∀ (fuel : Nat) (frontier : List String) (st : AgentState),
      (execSteps o m fuel frontier st).state.evaluation = st.evaluation := by
  intro fuel
  induction fuel with
  | zero => intro f st; rfl
  | succ fuel ih =>
    intro f st
    cases f with
    | nil => rfl
    | cons a t =>
      rw [execSteps]
      · simp only []
        rw [ih]
        refine foldMerge_evaluation m _ st ?_
        intro r hr
        rcases List.mem_map.mp hr with ⟨n, _, rfl⟩
        exact runNode_evaluation_none o n st
      · intro h
        exact absurd h (by simp)

/-- The execution trace of every run of the compiled graph is the same five
nodes: entry, the parallel pair, the join, the display agent — no loop. -/
theorem runAgentGraph_trace (o : RunOracle)
    (m : List Message → List Message → List Message) (init : AgentState) :
    (runAgentGraph o m init).trace =
      ["project_manager", "thinker", "researcher", "response_agent", "display_agent"] := rfl

/-- The fuel of `runAgentGraph` is not load-bearing: the frontier sequence
of the compiled graph empties after four supersteps, so any larger fuel
produces the identical run. -/
theorem execSteps_fuel_stable (o : RunOracle)
    (m : List Message → List Message → List Message) (init : AgentState) (k : Nat) :
    execSteps o m (k + 6) [entryNode] init = runAgentGraph o m init := rfl

/-- C4 counterexample: the compiled graph does not register a `validator`
node (the registration and the conditional retry edge are commented out),
and a concrete run — whose evaluator would fail if it were ever consulted —
terminates with `evaluation` still the initial `""`, not `"pass"`. -/
theorem c4_counterexample :
    graphNodes.contains "validator" = false ∧
    (runAgentGraph {} (· ++ ·) (initial_state "hello")).state.evaluation ≠ "pass" := by
  constructor
  · decide
  · decide

/-- C4 amended: because the validator node and its conditional edge are
commented out of `build_graph`, the compiled graph has no retry loop: for
every run the entry node `project_manager` executes exactly once (hence at
most `maxRetries + 1 = 3` times), and the run terminates with `evaluation`
equal to its initial empty-string value — never forced to `"pass"`. -/
theorem c4_no_retry_loop (o : RunOracle)
    (mMerge : List Message → List Message → List Message) (prompt : String) :
    (runAgentGraph o mMerge (initial_state prompt)).trace.count "project_manager" = 1 ∧
    (runAgentGraph o mMerge (initial_state prompt)).trace.count "project_manager" ≤ 2 + 1 ∧
    (runAgentGraph o mMerge (initial_state prompt)).state.evaluation = "" := by
  have ht := runAgentGraph_trace o mMerge (initial_state prompt)
  refine ⟨?_, ?_, ?_⟩
  · rw [ht]; rfl
  · rw [ht]; decide
  · exact execSteps_evaluation o mMerge 6 [entryNode] (initial_state prompt)

end InvestIQ
